import Mathlib

/-!
# xsqlfilter: the condition evaluator of `engine.go`

A shallow embedding of `evalCondition` (engine.go, lines 59-232) and of the
handful of Go standard-library string functions it calls, followed by theorems
about its behaviour.

Modelling conventions.

* A Go `string` is a sequence of bytes: `GoString := List (Fin 256)`.
* Go `int` and `int64` are both 64-bit on the targets this package is built
  for, so `int(n.Long)` is the identity; the evaluator performs no integer
  arithmetic, only comparisons, so integers are embedded as `Int`.
* A `float64` is embedded as its IEEE-754 binary64 fields (sign, biased
  exponent, fraction); the evaluator only compares floats, and the comparisons
  are defined exactly on those fields.
* `(bool, error)` is embedded as `Except EvalError Bool`; every error return of
  the source pairs the error with `false`.
* `sqlast.Node`, `sqlast.OperatorType` come from the parser library
  `github.com/akito0107/xsqlparser`; the embedding has one constructor for
  every node type and operator the evaluator names, and a catch-all constructor
  for all the others. Source positions carried by the nodes are dropped.
-/

namespace gosqlfilter

/-! ## Go strings and the `strings` functions used by the evaluator -/

/-- Go `byte`. -/
abbrev byte := Fin 256

/-- Go `string`: an immutable sequence of bytes. -/
abbrev GoString := List byte

/-- The byte of the percent sign, the only cutset and probe of the evaluator. -/
def pct : byte := 37

/-- Go `strings.HasPrefix`:
`len(s) >= len(prefix) && s[:len(prefix)] == prefix`. -/
def HasPrefix (s pfx : GoString) : Bool :=
  decide (s.length ≥ pfx.length) && (s.take pfx.length == pfx)

/-- Go `strings.HasSuffix`:
`len(s) >= len(suffix) && s[len(s)-len(suffix):] == suffix`. -/
def HasSuffix (s sfx : GoString) : Bool :=
  decide (s.length ≥ sfx.length) && (s.drop (s.length - sfx.length) == sfx)

/-- The scan behind Go `strings.Index`: the first offset, counted from `i`, at
which `substr` occurs in `s`, or `-1`. -/
def indexFrom (substr : GoString) : GoString → Nat → Int
  | [], i => if substr = [] then (i : Int) else -1
  | c :: cs, i =>
      if HasPrefix (c :: cs) substr then (i : Int) else indexFrom substr cs (i + 1)

/-- Go `strings.Index`: the index of the first instance of `substr` in `s`, or
`-1` if `substr` is not present in `s`. -/
def Index (s substr : GoString) : Int := indexFrom substr s 0

/-- Go `strings.Contains`: `Index(s, substr) >= 0`. -/
def Contains (s substr : GoString) : Bool := decide (Index s substr ≥ 0)

/-- Go `strings.trimLeftByte`:
`for len(s) > 0 && s[0] == c { s = s[1:] }`. -/
def trimLeftByte : GoString → byte → GoString
  | [], _ => []
  | b :: s, c => if b = c then trimLeftByte s c else b :: s

/-- Go `strings.trimRightByte`:
`for len(s) > 0 && s[len(s)-1] == c { s = s[:len(s)-1] }`. -/
def trimRightByte (s : GoString) (c : byte) : GoString :=
  (trimLeftByte s.reverse c).reverse

/-- Go `strings.Trim` for a cutset of one ASCII byte, the only way the
evaluator calls it: `trimLeftByte(trimRightByte(s, c), c)`. -/
def Trim (s : GoString) (c : byte) : GoString :=
  trimLeftByte (trimRightByte s c) c

/-! ## Floats -/

/-- An IEEE-754 binary64 value, by its fields. -/
structure float64 where
  sign : Bool
  exponent : Fin 2048
  fraction : Fin 4503599627370496
deriving DecidableEq, Repr

namespace float64

/-- Not-a-number: all exponent bits set and a non-zero fraction. -/
def isNaN (x : float64) : Bool := x.exponent.val == 2047 && x.fraction.val != 0

/-- The position of a non-NaN value on the number line: magnitudes are ordered
as their (exponent, fraction) pairs, and both zeros sit at 0. -/
def key (x : float64) : Int :=
  let m : Int := (x.exponent.val * 4503599627370496 + x.fraction.val : Nat)
  if x.sign then -m else m

/-- Go `l == r` on `float64`. -/
def eq (l r : float64) : Bool := !l.isNaN && !r.isNaN && decide (l.key = r.key)

/-- Go `l != r` on `float64`. -/
def ne (l r : float64) : Bool := !(eq l r)

/-- Go `l < r` on `float64`. -/
def lt (l r : float64) : Bool := !l.isNaN && !r.isNaN && decide (l.key < r.key)

/-- Go `l <= r` on `float64`. -/
def le (l r : float64) : Bool := !l.isNaN && !r.isNaN && decide (l.key ≤ r.key)

end float64

/-! ## Rows -/

/-- The dynamic value of a row cell (`interface{}`), by the type assertions the
evaluator makes: `int`, `string`, `float64`, `bool`, or a value of any other
dynamic type (the nil interface included). -/
inductive Value where
  | int (i : Int)
  | string (s : GoString)
  | float64 (f : float64)
  | bool (b : Bool)
  | other (tag : Nat)
deriving DecidableEq, Repr

/-- A row, `map[string]interface{}`, as an association list; `row[k]` reads the
first binding of `k`. -/
abbrev Row := List (GoString × Value)

/-- The comma-ok map read `v, ok := row[k]`. -/
def Row.get (row : Row) (k : GoString) : Option Value := List.lookup k row

/-! ## The expression tree -/

/-- The operator types of `sqlast.OperatorType` that the evaluator names, and
a catch-all for the others (`Plus`, `Minus`, `NotLike`, ...). -/
inductive OperatorType where
  | Gt | Lt | GtEq | LtEq | Eq | NotEq | And | Or | Not | Like
  | Other (code : Nat)
deriving DecidableEq, Repr

/-- The node types of `sqlast.Node` that the evaluator names, and a catch-all
for the others. The operator fields hold `n.Op.Type`. -/
inductive Node where
  | Nested (AST : Node)
  | UnaryExpr (Op : OperatorType) (Expr : Node)
  | InList (Expr : Node) (items : List Node) (Negated : Bool)
  | BinaryExpr (Left : Node) (Op : OperatorType) (Right : Node)
  | Ident (Value : GoString)
  | LongValue (Long : Int)
  | SingleQuotedString (String : GoString)
  | DoubleValue (Double : float64)
  | BooleanValue (Boolean : Bool)
  | Other (tag : Nat)

/-- The dynamic type of a node, what `%T` prints in the error messages. -/
inductive NodeType where
  | Nested | UnaryExpr | InList | BinaryExpr | Ident | LongValue
  | SingleQuotedString | DoubleValue | BooleanValue
  | Other (tag : Nat)
deriving DecidableEq, Repr

/-- The dynamic type of a node. -/
def Node.typeOf : Node → NodeType
  | .Nested _ => .Nested
  | .UnaryExpr _ _ => .UnaryExpr
  | .InList _ _ _ => .InList
  | .BinaryExpr _ _ _ => .BinaryExpr
  | .Ident _ => .Ident
  | .LongValue _ => .LongValue
  | .SingleQuotedString _ => .SingleQuotedString
  | .DoubleValue _ => .DoubleValue
  | .BooleanValue _ => .BooleanValue
  | .Other t => .Other t

/-- The errors `evalCondition` builds with `fmt.Errorf`, one constructor per
format string, carrying what the format prints. -/
inductive EvalError where
  /-- Format `"in list expr is must be ident: %T"` (line 75). -/
  | inListExprMustBeIdent (t : NodeType)
  /-- Format `"left is must be ident: %T"` (line 132). -/
  | leftMustBeIdent (t : NodeType)
  /-- Format `"unsupported int expression: %s"` (line 159). -/
  | unsupportedIntExpression (op : OperatorType)
  /-- Format `"unsupported string expression: %s"` (line 195). -/
  | unsupportedStringExpression (op : OperatorType)
deriving DecidableEq, Repr

/-- The result `(bool, error)` of the evaluator. -/
abbrev Result := Except EvalError Bool

deriving instance DecidableEq for Except

/-! ## The evaluator -/

/-- Go `int(n.Long)`: `int64` to `int`, the identity on 64-bit targets. -/
def intOfLong (x : Int) : Int := x

/-- The body of the `for _, item := range n.List` loop (lines 82-98): does
this item make the loop return `true`? -/
def inListItem (v : Value) : Node → Bool
  | .SingleQuotedString s =>
      match v with
      | .string l => l == s
      | _ => false
  | .LongValue n =>
      match v with
      | .int i => i == intOfLong n
      | _ => false
  | .DoubleValue d =>
      match v with
      | .float64 f => float64.eq f d
      | _ => false
  | _ => false

/-- The loop of lines 81-100: return `true` at the first item that matches,
`false` when the list is exhausted. -/
def inListLoop (v : Value) : List Node → Bool
  | [] => false
  | item :: rest => if inListItem v item then true else inListLoop v rest

/-- The `LIKE` case of a string comparison (lines 181-193). -/
def evalLike (l r : GoString) : Bool :=
  let pfx := HasPrefix r [pct]
  let sfx := HasSuffix r [pct]
  let s := Trim r pct
  if pfx && sfx then Contains l s
  else if pfx then HasSuffix l s
  else if sfx then HasPrefix l s
  else l == r

/-- Go `l < r` on strings: lexicographic order of the bytes. -/
def strLt (l r : GoString) : Bool := decide (l < r)

/-- The `switch rn := n.Right.(type)` of lines 138-229, reached with the
value `v` of a present column; falling out of the switch reaches the final
`return true, nil` of line 231. -/
def evalCompare (v : Value) (op : OperatorType) : Node → Result
  | .LongValue long =>
      match v with
      | .int l =>
          let r := intOfLong long
          match op with
          | .Eq => .ok (decide (l = r))
          | .NotEq => .ok (decide (l ≠ r))
          | .Gt => .ok (decide (l > r))
          | .GtEq => .ok (decide (l ≥ r))
          | .Lt => .ok (decide (l < r))
          | .LtEq => .ok (decide (l ≤ r))
          | _ => .error (.unsupportedIntExpression op)
      | _ => .ok false
  | .SingleQuotedString r =>
      match v with
      | .string l =>
          match op with
          | .Eq => .ok (l == r)
          | .NotEq => .ok (l != r)
          | .Gt => .ok (strLt r l)
          | .GtEq => .ok (!strLt l r)
          | .Lt => .ok (strLt l r)
          | .LtEq => .ok (!strLt r l)
          | .Like => .ok (evalLike l r)
          | _ => .error (.unsupportedStringExpression op)
      | _ => .ok false
  | .DoubleValue r =>
      match v with
      | .float64 l =>
          match op with
          | .Eq => .ok (float64.eq l r)
          | .NotEq => .ok (float64.ne l r)
          | .Gt => .ok (float64.lt r l)
          | .GtEq => .ok (float64.le r l)
          | .Lt => .ok (float64.lt l r)
          | .LtEq => .ok (float64.le l r)
          | _ => .ok true
      | _ => .ok false
  | .BooleanValue r =>
      match v with
      | .bool l =>
          match op with
          | .Eq => .ok (l == r)
          | .NotEq => .ok (l != r)
          | _ => .ok true
      | _ => .ok false
  | _ => .ok true

/-- Lines 130-229: a binary expression whose operator is neither `And` nor
`Or`. -/
def evalBinary (row : Row) (left : Node) (op : OperatorType) (right : Node) : Result :=
  match left with
  | .Ident column =>
      match row.get column with
      | none => .ok false
      | some v => evalCompare v op right
  | _ => .error (.leftMustBeIdent left.typeOf)

/-- Lines 72-100: the `*sqlast.InList` case. -/
def evalInList (row : Row) (expr : Node) (items : List Node) : Result :=
  match expr with
  | .Ident column =>
      match row.get column with
      | none => .ok false
      | some v => .ok (inListLoop v items)
  | _ => .error (.inListExprMustBeIdent expr.typeOf)

/-- The function `evalCondition(row, node)` of engine.go. -/
def evalCondition (row : Row) : Node → Result
  | .Nested ast => evalCondition row ast
  | .UnaryExpr op expr =>
      match op with
      | .Not =>
          match evalCondition row expr with
          | .error err => .error err
          | .ok ok => .ok (!ok)
      | _ => .ok true
  | .InList expr items _ => evalInList row expr items
  | .BinaryExpr left op right =>
      match op with
      | .And =>
          match evalCondition row left with
          | .error err => .error err
          | .ok false => .ok false
          | .ok true =>
              match evalCondition row right with
              | .error err => .error err
              | .ok rOk => .ok rOk
      | .Or =>
          match evalCondition row left with
          | .error err => .error err
          | .ok true => .ok true
          | .ok false =>
              match evalCondition row right with
              | .error err => .error err
              | .ok rOk => .ok rOk
      | _ => evalBinary row left op right
  | _ => .ok true

/-- The method `Engine.Row` (lines 17-26), on the engine's `WHERE` clause:
`none` is the nil error, `some err` the error of `evalCondition` wrapped by
`fmt.Errorf("eval condition: %w", err)`. -/
def Engine.Row (whereClause : Node) (row : Row) : Option EvalError :=
  match evalCondition row whereClause with
  | .error err => some err
  | .ok ok => if !ok then none else none

/-! ## Vocabulary of the specification -/

/-- The four kinds of scalar the specification speaks of. -/
inductive Kind where
  | Integer | Float | Text | Boolean
deriving DecidableEq, Repr

/-- The runtime kind of a row value: which of the type assertions `v.(int)`,
`v.(float64)`, `v.(string)`, `v.(bool)` succeeds, if any. -/
def Value.kind : Value → Option Kind
  | .int _ => some .Integer
  | .float64 _ => some .Float
  | .string _ => some .Text
  | .bool _ => some .Boolean
  | .other _ => none

/-- The kind of a literal node: `LongValue`, `DoubleValue`,
`SingleQuotedString`, `BooleanValue`; no other node is a literal. -/
def Node.literalKind : Node → Option Kind
  | .LongValue _ => some .Integer
  | .DoubleValue _ => some .Float
  | .SingleQuotedString _ => some .Text
  | .BooleanValue _ => some .Boolean
  | _ => none

/-- A row value and a list item have the same kind and equal values, with the
equality of Go on each kind. -/
def sameKindEqual : Value → Node → Prop
  | .int i, .LongValue n => i = n
  | .float64 f, .DoubleValue d => float64.eq f d = true
  | .string l, .SingleQuotedString s => l = s
  | .bool b, .BooleanValue t => b = t
  | _, _ => False

/-- The six comparison operators that integers and texts support. -/
def comparisonOps : List OperatorType := [.Eq, .NotEq, .Gt, .GtEq, .Lt, .LtEq]

/-- The relation a comparison operator denotes between a left and a right
operand, over a strict order `lt` of the operands. -/
def opRel {α : Type} (lt : α → α → Prop) (op : OperatorType) (l r : α) : Prop :=
  match op with
  | .Eq => l = r
  | .NotEq => l ≠ r
  | .Gt => lt r l
  | .GtEq => lt r l ∨ l = r
  | .Lt => lt l r
  | .LtEq => lt l r ∨ l = r
  | _ => False

/-- The column identifiers that occur as the left side of a comparison or of
an `IN` test in the logical structure of an expression (under grouping, unary
operators, `AND` and `OR`). -/
def Node.columns : Node → List GoString
  | .Nested ast => ast.columns
  | .UnaryExpr _ expr => expr.columns
  | .InList expr _ _ =>
      match expr with
      | .Ident c => [c]
      | _ => []
  | .BinaryExpr left op right =>
      match op with
      | .And => left.columns ++ right.columns
      | .Or => left.columns ++ right.columns
      | _ =>
          match left with
          | .Ident c => [c]
          | _ => []
  | _ => []

/-! ## Fixtures: the rows and expressions of `engine_test.go` and a few more -/

/-- The column name `a`. -/
def colA : GoString := [97]

/-- The column name `b`. -/
def colB : GoString := [98]

/-- The row `{a: 1, b: 2}` of the tests `Or` and `And`. -/
def rowAB : Row := [(colA, .int 1), (colB, .int 2)]

/-- The condition `a = 2`, false on `rowAB`. -/
def exprAEq2 : Node := .BinaryExpr (.Ident colA) .Eq (.LongValue 2)

/-- The condition `a = 1`, true on `rowAB`. -/
def exprAEq1 : Node := .BinaryExpr (.Ident colA) .Eq (.LongValue 1)

/-- The condition `b = 2`, true on `rowAB`. -/
def exprBEq2 : Node := .BinaryExpr (.Ident colB) .Eq (.LongValue 2)

/-- The condition `a LIKE 1`, an error on `rowAB`: an integer column compared
with `LIKE`. -/
def exprALike1 : Node := .BinaryExpr (.Ident colA) .Like (.LongValue 1)

/-- The row `{a: "1"}` of the test `StrEqInt`. -/
def rowStr1 : Row := [(colA, .string [49])]

/-- The row `{a: true}`. -/
def rowTrue : Row := [(colA, .bool true)]

/-- The text `abcdef` of the `StrLike` tests. -/
def strAbcdef : GoString := [97, 98, 99, 100, 101, 102]

/-- The row `{a: "abcdef"}` of the `StrLike` tests. -/
def rowAbcdef : Row := [(colA, .string strAbcdef)]

/-- The text `abcd`. -/
def strAbcd : GoString := [97, 98, 99, 100]

/-- The row `{a: "abcd"}`. -/
def rowAbcd : Row := [(colA, .string strAbcd)]

/-- The pattern `abc%%`: two trailing percent signs. -/
def patAbcPctPct : GoString := [97, 98, 99, 37, 37]

/-- The pattern `%%def`: two leading percent signs. -/
def patPctPctDef : GoString := [37, 37, 100, 101, 102]

/-- The pattern `%%cd%%`: two percent signs on each side. -/
def patPctPctCdPctPct : GoString := [37, 37, 99, 100, 37, 37]

/-- The row `{a: "axb"}`. -/
def rowAxb : Row := [(colA, .string [97, 120, 98])]

/-- The pattern `a%b`: a percent sign in the interior only. -/
def patAPctB : GoString := [97, 37, 98]

/-- The row `{a: 2}` of the tests `IntLe` to `IntGte`. -/
def rowA2 : Row := [(colA, .int 2)]

/-- The row `{a: "b"}`. -/
def rowStrB : Row := [(colA, .string [98])]

/-- The float `1.5`: sign 0, biased exponent 1023, fraction one half. -/
def float1p5 : float64 := ⟨false, 1023, 2251799813685248⟩

/-- The row `{a: 1.5}`. -/
def rowFloat : Row := [(colA, .float64 float1p5)]

/-- The row `{a: 1, b: 3}`: `rowAB` with another `b`. -/
def rowAB3 : Row := [(colA, .int 1), (colB, .int 3)]

/-! ## The strings functions against their specifications -/

theorem HasPrefix_iff (s p : GoString) : HasPrefix s p = true ↔ p <+: s := by
  unfold HasPrefix
  rw [List.prefix_iff_eq_take]
  simp only [Bool.and_eq_true, decide_eq_true_eq, beq_iff_eq]
  constructor
  · rintro ⟨_, h⟩
    exact h.symm
  · intro h
    refine ⟨?_, h.symm⟩
    have hl := congrArg List.length h
    simp only [List.length_take] at hl
    omega

theorem HasSuffix_iff (s p : GoString) : HasSuffix s p = true ↔ p <:+ s := by
  unfold HasSuffix
  rw [List.suffix_iff_eq_drop]
  simp only [Bool.and_eq_true, decide_eq_true_eq, beq_iff_eq]
  constructor
  · rintro ⟨_, h⟩
    exact h.symm
  · intro h
    refine ⟨?_, h.symm⟩
    have hl := congrArg List.length h
    simp only [List.length_drop] at hl
    omega

theorem indexFrom_nonneg_iff (sub s : GoString) (i : Nat) :
    0 ≤ indexFrom sub s i ↔ sub <:+: s := by
  induction s generalizing i with
  | nil =>
      by_cases h : sub = []
      · simp [indexFrom, h]
      · simp [indexFrom, h]
  | cons c cs ih =>
      rw [List.infix_cons_iff, ← HasPrefix_iff, ← ih (i + 1)]
      by_cases h : HasPrefix (c :: cs) sub = true
      · simp [indexFrom, h]
      · simp [indexFrom, h]

theorem Contains_iff (s sub : GoString) : Contains s sub = true ↔ sub <:+: s := by
  unfold Contains Index
  rw [decide_eq_true_eq]
  exact indexFrom_nonneg_iff sub s 0

theorem HasPrefix_pct_iff (p : GoString) (c : byte) :
    HasPrefix p [c] = true ↔ p.head? = some c := by
  rw [HasPrefix_iff]
  cases p with
  | nil => simp
  | cons b t => simp [eq_comm]

theorem HasSuffix_pct_iff (p : GoString) (c : byte) :
    HasSuffix p [c] = true ↔ p.getLast? = some c := by
  rw [HasSuffix_iff, ← List.reverse_prefix, ← List.head?_reverse]
  cases p.reverse with
  | nil => simp
  | cons b t => simp [eq_comm]

theorem trimLeftByte_replicate_append (j : Nat) (c : byte) (t : GoString) :
    trimLeftByte (List.replicate j c ++ t) c = trimLeftByte t c := by
  induction j with
  | zero => simp
  | succ n ih => simp [List.replicate_succ, trimLeftByte, ih]

theorem trimLeftByte_of_head (t : GoString) (c : byte) (h : t.head? ≠ some c) :
    trimLeftByte t c = t := by
  cases t with
  | nil => rfl
  | cons b t =>
      have hb : b ≠ c := by simpa using h
      simp [trimLeftByte, hb]

theorem Trim_decomp (j k : Nat) (c : byte) (s : GoString)
    (hh : s.head? ≠ some c) (hl : s.getLast? ≠ some c) :
    Trim (List.replicate j c ++ s ++ List.replicate k c) c = s := by
  unfold Trim trimRightByte
  simp only [List.reverse_append, List.reverse_replicate, List.append_assoc,
    trimLeftByte_replicate_append]
  by_cases hs : s = []
  · subst hs
    have h0 := trimLeftByte_replicate_append j c []
    simp only [List.append_nil] at h0
    simp [h0, trimLeftByte]
  · have h1 : trimLeftByte (s.reverse ++ List.replicate j c) c
        = s.reverse ++ List.replicate j c := by
      apply trimLeftByte_of_head
      rw [List.head?_append, List.head?_reverse]
      cases hgl : s.getLast? with
      | none => exact absurd (List.getLast?_eq_none_iff.mp hgl) hs
      | some x =>
          intro hx
          apply hl
          rw [hgl]
          simpa using hx
    rw [h1]
    simp only [List.reverse_append, List.reverse_replicate, List.reverse_reverse]
    rw [trimLeftByte_replicate_append]
    exact trimLeftByte_of_head _ _ hh

theorem exists_leading_decomp (c : byte) (p : GoString) :
    ∃ j s, p = List.replicate j c ++ s ∧ s.head? ≠ some c := by
  induction p with
  | nil => exact ⟨0, [], rfl, by simp⟩
  | cons b t ih =>
      by_cases hb : b = c
      · obtain ⟨j, s, ht, hs⟩ := ih
        refine ⟨j + 1, s, ?_, hs⟩
        rw [hb, ht, List.replicate_succ, List.cons_append]
      · exact ⟨0, b :: t, rfl, by simpa using hb⟩

/-- Every pattern is a run of percent signs, a core that neither starts nor
ends with a percent sign, and a run of percent signs: the patterns the `LIKE`
theorems below speak of are all the patterns. -/
theorem exists_pct_decomp (p : GoString) :
    ∃ j s k, p = List.replicate j pct ++ s ++ List.replicate k pct ∧
      s.head? ≠ some pct ∧ s.getLast? ≠ some pct := by
  obtain ⟨j, t, hp, ht⟩ := exists_leading_decomp pct p
  obtain ⟨k, r, hr, hrh⟩ := exists_leading_decomp pct t.reverse
  have htr : t = r.reverse ++ List.replicate k pct := by
    have h := congrArg List.reverse hr
    simpa using h
  refine ⟨j, r.reverse, k, ?_, ?_, ?_⟩
  · rw [hp, htr, List.append_assoc]
  · cases hrr : r.reverse with
    | nil => simp
    | cons x xs =>
        intro hx
        apply ht
        rw [htr, hrr]
        simpa using hx
  · rw [List.getLast?_reverse]
    exact hrh

theorem evalLike_decomp (l p s : GoString) (j k : Nat)
    (hp : p = List.replicate j pct ++ s ++ List.replicate k pct)
    (hh : s.head? ≠ some pct) (hl : s.getLast? ≠ some pct) :
    evalLike l p =
      if HasPrefix p [pct] && HasSuffix p [pct] then Contains l s
      else if HasPrefix p [pct] then HasSuffix l s
      else if HasSuffix p [pct] then HasPrefix l s
      else l == p := by
  have ht : Trim p pct = s := by rw [hp]; exact Trim_decomp j k pct s hh hl
  simp only [evalLike, ht]

theorem evalCondition_like (row : Row) (c l p : GoString)
    (hv : row.get c = some (.string l)) :
    evalCondition row (.BinaryExpr (.Ident c) .Like (.SingleQuotedString p))
      = .ok (evalLike l p) := by
  simp only [evalCondition, evalBinary, hv, evalCompare]

theorem HasPrefix_eq_decide (s p : GoString) : HasPrefix s p = decide (p <+: s) := by
  rw [Bool.eq_iff_iff, HasPrefix_iff, decide_eq_true_eq]

theorem HasSuffix_eq_decide (s p : GoString) : HasSuffix s p = decide (p <:+ s) := by
  rw [Bool.eq_iff_iff, HasSuffix_iff, decide_eq_true_eq]

theorem Contains_eq_decide (s p : GoString) : Contains s p = decide (p <:+: s) := by
  rw [Bool.eq_iff_iff, Contains_iff, decide_eq_true_eq]

theorem HasPrefix_pct_false (p : GoString) (h : p.head? ≠ some pct) :
    HasPrefix p [pct] = false := by
  rw [← Bool.not_eq_true, HasPrefix_pct_iff]
  exact h

theorem HasSuffix_pct_false (p : GoString) (h : p.getLast? ≠ some pct) :
    HasSuffix p [pct] = false := by
  rw [← Bool.not_eq_true, HasSuffix_pct_iff]
  exact h

theorem inListLoop_iff (v : Value) (items : List Node) :
    inListLoop v items = true ↔ ∃ item ∈ items, inListItem v item = true := by
  induction items with
  | nil => simp [inListLoop]
  | cons item rest ih =>
      by_cases h : inListItem v item = true
      · simp [inListLoop, h]
      · simp [inListLoop, h, ih]

theorem inListItem_iff (v : Value) (item : Node) (hv : v.kind ≠ some .Boolean) :
    inListItem v item = true ↔ sameKindEqual v item := by
  cases v <;> cases item <;>
    first
    | exact absurd rfl hv
    | simp [inListItem, sameKindEqual, intOfLong]

/-! ## Logical connectives -/

/-- C1. For every row and expressions `e1`, `e2`, `evalCondition` on
`e1 AND e2` is the error of `e1` when `e1` fails, `false` without error when
`e1` is false (whatever `e2` is, also when `e2` alone fails), and exactly the
result of `e2`, verdict or error, when `e1` is true. -/
theorem evalCondition_and (row : Row) (e1 e2 : Node) :
    (∀ err, evalCondition row e1 = .error err →
      evalCondition row (.BinaryExpr e1 .And e2) = .error err) ∧
    (evalCondition row e1 = .ok false →
      evalCondition row (.BinaryExpr e1 .And e2) = .ok false) ∧
    (evalCondition row e1 = .ok true →
      evalCondition row (.BinaryExpr e1 .And e2) = evalCondition row e2) := by
  refine ⟨fun err h => ?_, fun h => ?_, fun h => ?_⟩
  · simp only [evalCondition, h]
  · simp only [evalCondition, h]
  · simp only [evalCondition, h]
    cases evalCondition row e2 <;> rfl

/-- C1, witness: on `{a: 1, b: 2}`, `a = 2` is false and `a LIKE 1` fails, yet
`a = 2 AND a LIKE 1` is false without error; `a LIKE 1 AND b = 2` fails with
the error of its left side; `a = 1 AND a LIKE 1` fails as its right side. -/
theorem evalCondition_and_witness :
    evalCondition rowAB exprAEq2 = .ok false ∧
    evalCondition rowAB exprALike1 = .error (.unsupportedIntExpression .Like) ∧
    evalCondition rowAB (.BinaryExpr exprAEq2 .And exprALike1) = .ok false ∧
    evalCondition rowAB (.BinaryExpr exprALike1 .And exprBEq2)
      = .error (.unsupportedIntExpression .Like) ∧
    evalCondition rowAB (.BinaryExpr exprAEq1 .And exprALike1)
      = evalCondition rowAB exprALike1 :=
  ⟨by decide, by decide,
   (evalCondition_and rowAB exprAEq2 exprALike1).2.1 (by decide),
   (evalCondition_and rowAB exprALike1 exprBEq2).1 _ (by decide),
   (evalCondition_and rowAB exprAEq1 exprALike1).2.2 (by decide)⟩

/-- C2. For every row and expressions `e1`, `e2`, `evalCondition` on
`e1 OR e2` is the error of `e1` when `e1` fails, `true` without error when `e1`
is true (whatever `e2` is, also when `e2` alone fails), and exactly the result
of `e2`, verdict or error, when `e1` is false. -/
theorem evalCondition_or (row : Row) (e1 e2 : Node) :
    (∀ err, evalCondition row e1 = .error err →
      evalCondition row (.BinaryExpr e1 .Or e2) = .error err) ∧
    (evalCondition row e1 = .ok true →
      evalCondition row (.BinaryExpr e1 .Or e2) = .ok true) ∧
    (evalCondition row e1 = .ok false →
      evalCondition row (.BinaryExpr e1 .Or e2) = evalCondition row e2) := by
  refine ⟨fun err h => ?_, fun h => ?_, fun h => ?_⟩
  · simp only [evalCondition, h]
  · simp only [evalCondition, h]
  · simp only [evalCondition, h]
    cases evalCondition row e2 <;> rfl

/-- C2, witness: on `{a: 1, b: 2}`, `a = 1` is true and `a LIKE 1` fails, yet
`a = 1 OR a LIKE 1` is true without error; `a LIKE 1 OR b = 2` fails with the
error of its left side; `a = 2 OR a LIKE 1` fails as its right side. -/
theorem evalCondition_or_witness :
    evalCondition rowAB exprAEq1 = .ok true ∧
    evalCondition rowAB exprALike1 = .error (.unsupportedIntExpression .Like) ∧
    evalCondition rowAB (.BinaryExpr exprAEq1 .Or exprALike1) = .ok true ∧
    evalCondition rowAB (.BinaryExpr exprALike1 .Or exprBEq2)
      = .error (.unsupportedIntExpression .Like) ∧
    evalCondition rowAB (.BinaryExpr exprAEq2 .Or exprALike1)
      = evalCondition rowAB exprALike1 :=
  ⟨by decide, by decide,
   (evalCondition_or rowAB exprAEq1 exprALike1).2.1 (by decide),
   (evalCondition_or rowAB exprALike1 exprBEq2).1 _ (by decide),
   (evalCondition_or rowAB exprAEq2 exprALike1).2.2 (by decide)⟩

/-- C3. For every row and expression `e`: if `evalCondition` on `e` succeeds
with verdict `b` then on `NOT e` it succeeds with verdict `not b`, and if it
fails on `e` then it fails on `NOT e` with the same error. -/
theorem evalCondition_not (row : Row) (e : Node) :
    (∀ b, evalCondition row e = .ok b →
      evalCondition row (.UnaryExpr .Not e) = .ok (!b)) ∧
    (∀ err, evalCondition row e = .error err →
      evalCondition row (.UnaryExpr .Not e) = .error err) := by
  refine ⟨fun b h => ?_, fun err h => ?_⟩
  · simp only [evalCondition, h]
  · simp only [evalCondition, h]

/-- C3, witness: on `{a: 1, b: 2}`, `NOT (a = 2)` is true and `NOT (a LIKE 1)`
fails like `a LIKE 1`. -/
theorem evalCondition_not_witness :
    evalCondition rowAB (.UnaryExpr .Not exprAEq2) = .ok true ∧
    evalCondition rowAB (.UnaryExpr .Not exprALike1)
      = .error (.unsupportedIntExpression .Like) :=
  ⟨(evalCondition_not rowAB exprAEq2).1 false (by decide),
   (evalCondition_not rowAB exprALike1).2 _ (by decide)⟩

/-! ## Missing columns and mismatched kinds -/

/-- C4. For every row and every comparison (a binary node whose operator is
neither `AND` nor `OR`) or `IN` test whose left side is a column identifier
that is not a key of the row, `evalCondition` returns `false` without error,
for every operator, every right-hand side and every item list. -/
theorem evalCondition_missing_column (row : Row) (c : GoString)
    (h : row.get c = none) :
    (∀ op right, op ≠ .And → op ≠ .Or →
      evalCondition row (.BinaryExpr (.Ident c) op right) = .ok false) ∧
    (∀ items neg, evalCondition row (.InList (.Ident c) items neg) = .ok false) := by
  constructor
  · intro op right hand hor
    cases op <;> first
      | exact absurd rfl hand
      | exact absurd rfl hor
      | simp only [evalCondition, evalBinary, h]
  · intro items neg
    simp only [evalCondition, evalInList, h]

/-- C4, witness: on the empty row (test `NoVariable`), `a = 1`, `a LIKE 1`
and `a IN (1)` are all false without error. -/
theorem evalCondition_missing_column_witness :
    evalCondition [] exprAEq1 = .ok false ∧
    evalCondition [] exprALike1 = .ok false ∧
    evalCondition [] (.InList (.Ident colA) [.LongValue 1] false) = .ok false :=
  ⟨(evalCondition_missing_column [] colA rfl).1 .Eq (.LongValue 1) (by decide) (by decide),
   (evalCondition_missing_column [] colA rfl).1 .Like (.LongValue 1) (by decide) (by decide),
   (evalCondition_missing_column [] colA rfl).2 [.LongValue 1] false⟩

/-- C5. For every row in which the column is present and every comparison of
that column with an Integer, Float, Text or Boolean literal whose kind differs
from the runtime kind of the column value, `evalCondition` returns `false`
without error, for every operator (other than `AND` and `OR`, which make no
comparison), supported by the kind of the literal or not. -/
theorem evalCondition_kind_mismatch (row : Row) (c : GoString) (v : Value)
    (op : OperatorType) (lit : Node) (k : Kind)
    (hv : row.get c = some v) (hk : lit.literalKind = some k)
    (hne : v.kind ≠ some k) (hand : op ≠ .And) (hor : op ≠ .Or) :
    evalCondition row (.BinaryExpr (.Ident c) op lit) = .ok false := by
  have hcmp : evalCompare v op lit = .ok false := by
    cases lit <;> simp only [Node.literalKind, Option.some.injEq, reduceCtorEq] at hk
      <;> subst hk
      <;> cases v
      <;> first
        | exact absurd rfl hne
        | rfl
  cases op <;> first
    | exact absurd rfl hand
    | exact absurd rfl hor
    | simp only [evalCondition, evalBinary, hv, hcmp]

/-- C5, witness: on `{a: "1"}`, `a = 1` (test `StrEqInt`) and `a LIKE 1` are
false without error. -/
theorem evalCondition_kind_mismatch_witness :
    evalCondition rowStr1 exprAEq1 = .ok false ∧
    evalCondition rowStr1 exprALike1 = .ok false :=
  ⟨evalCondition_kind_mismatch rowStr1 colA (.string [49]) .Eq (.LongValue 1) .Integer
     rfl rfl (by decide) (by decide) (by decide),
   evalCondition_kind_mismatch rowStr1 colA (.string [49]) .Like (.LongValue 1) .Integer
     rfl rfl (by decide) (by decide) (by decide)⟩

/-! ## Membership tests -/

/-- The part of C6 that the code meets: when the column is present with a
value that is not a boolean, the `IN` test succeeds, and its verdict is true
exactly when some item has the kind of the value and an equal value. -/
theorem evalCondition_inList_membership (row : Row) (c : GoString) (v : Value)
    (items : List Node) (neg : Bool)
    (hv : row.get c = some v) (hk : v.kind ≠ some .Boolean) :
    ∃ r, evalCondition row (.InList (.Ident c) items neg) = .ok r ∧
      (r = true ↔ ∃ item ∈ items, sameKindEqual v item) := by
  refine ⟨inListLoop v items, ?_, ?_⟩
  · simp only [evalCondition, evalInList, hv]
  · rw [inListLoop_iff]
    constructor
    · rintro ⟨item, hm, h⟩
      exact ⟨item, hm, (inListItem_iff v item hk).mp h⟩
    · rintro ⟨item, hm, h⟩
      exact ⟨item, hm, (inListItem_iff v item hk).mpr h⟩

/-- The verdict of an `IN` test does not depend on the order of the items, nor
on the `Negated` flag of the node. -/
theorem evalCondition_inList_perm (row : Row) (e : Node) (items items2 : List Node)
    (neg neg2 : Bool) (hp : items.Perm items2) :
    evalCondition row (.InList e items neg) = evalCondition row (.InList e items2 neg2) := by
  have hloop : ∀ v, inListLoop v items = inListLoop v items2 := by
    intro v
    rw [Bool.eq_iff_iff, inListLoop_iff, inListLoop_iff]
    constructor
    · rintro ⟨item, hm, h⟩
      exact ⟨item, hp.mem_iff.mp hm, h⟩
    · rintro ⟨item, hm, h⟩
      exact ⟨item, hp.mem_iff.mpr hm, h⟩
  simp only [evalCondition, evalInList, hloop]

/-- A boolean column matches no item of any list. -/
theorem evalCondition_inList_bool (row : Row) (c : GoString) (b : Bool)
    (items : List Node) (neg : Bool) (hv : row.get c = some (.bool b)) :
    evalCondition row (.InList (.Ident c) items neg) = .ok false := by
  have hloop : inListLoop (.bool b) items = false := by
    rw [← Bool.not_eq_true, inListLoop_iff]
    rintro ⟨item, _, h⟩
    cases item <;> simp [inListItem] at h
  simp only [evalCondition, evalInList, hv, hloop]

/-- C6, at the failing input: on the row `{a: true}` the test `a IN (true)`
is false, although the item `true` has the kind and the value of the column,
while the comparison `a = true` on the same row is true. -/
theorem evalCondition_inList_true_in_true :
    rowTrue.get colA = some (.bool true) ∧
    sameKindEqual (.bool true) (.BooleanValue true) ∧
    evalCondition rowTrue (.InList (.Ident colA) [.BooleanValue true] false) = .ok false ∧
    evalCondition rowTrue (.BinaryExpr (.Ident colA) .Eq (.BooleanValue true)) = .ok true :=
  ⟨by decide, rfl, by decide, by decide⟩

/-! ## LIKE patterns -/

/-- C7 as stated fails: on `{a: "abcd"}` the pattern `abc%%` ends with a
percent sign and does not start with one, `a LIKE 'abc%%'` is true, and
`abcd` does not start with the pattern minus its last character, `abc%`. -/
theorem evalCondition_like_trailing_counterexample :
    rowAbcd.get colA = some (.string strAbcd) ∧
    patAbcPctPct.getLast? = some pct ∧ patAbcPctPct.head? ≠ some pct ∧
    evalCondition rowAbcd (.BinaryExpr (.Ident colA) .Like (.SingleQuotedString patAbcPctPct))
      = .ok true ∧
    ¬ (patAbcPctPct.dropLast <+: strAbcd) := by
  decide

/-- C7, amended. For every text value `l` of a present column and every text
pattern `p` that ends with a percent sign and does not start with one, the
comparison `column LIKE p` evaluates to true exactly when `l` starts with `s`,
where `s` is `p` with all of its trailing percent signs removed: `p` is `s`
followed by `k` percent signs and `s` does not end with a percent sign. -/
theorem evalCondition_like_trailing (row : Row) (c l p s : GoString) (k : Nat)
    (hv : row.get c = some (.string l))
    (hend : p.getLast? = some pct) (hstart : p.head? ≠ some pct)
    (hp : p = s ++ List.replicate k pct) (hs : s.getLast? ≠ some pct) :
    evalCondition row (.BinaryExpr (.Ident c) .Like (.SingleQuotedString p))
      = .ok (decide (s <+: l)) := by
  have hh : s.head? ≠ some pct := by
    intro h
    apply hstart
    rw [hp, List.head?_append, h]
    rfl
  have hp2 : p = List.replicate 0 pct ++ s ++ List.replicate k pct := by
    simpa using hp
  rw [evalCondition_like row c l p hv, evalLike_decomp l p s 0 k hp2 hh hs,
    HasPrefix_pct_false p hstart, (HasSuffix_pct_iff p pct).mpr hend,
    HasPrefix_eq_decide]
  rfl

/-- C7, witness: on `{a: "abcd"}`, `a LIKE 'abc%%'` is true, as `abcd` starts
with `abc`. -/
theorem evalCondition_like_trailing_witness :
    evalCondition rowAbcd (.BinaryExpr (.Ident colA) .Like (.SingleQuotedString patAbcPctPct))
      = .ok (decide (([97, 98, 99] : GoString) <+: strAbcd)) :=
  evalCondition_like_trailing rowAbcd colA strAbcd patAbcPctPct [97, 98, 99] 2
    (by decide) (by decide) (by decide) (by decide) (by decide)

/-- C8 as stated fails: on `{a: "abcdef"}` the pattern `%%def` starts with a
percent sign and does not end with one, `a LIKE '%%def'` is true, and `abcdef`
does not end with the pattern minus its first character, `%def`. -/
theorem evalCondition_like_leading_counterexample :
    rowAbcdef.get colA = some (.string strAbcdef) ∧
    patPctPctDef.head? = some pct ∧ patPctPctDef.getLast? ≠ some pct ∧
    evalCondition rowAbcdef (.BinaryExpr (.Ident colA) .Like (.SingleQuotedString patPctPctDef))
      = .ok true ∧
    ¬ (patPctPctDef.drop 1 <:+ strAbcdef) := by
  decide

/-- C8, amended. For every text value `l` of a present column and every text
pattern `p` that starts with a percent sign and does not end with one, the
comparison `column LIKE p` evaluates to true exactly when `l` ends with `s`,
where `s` is `p` with all of its leading percent signs removed: `p` is `j`
percent signs followed by `s` and `s` does not start with a percent sign. -/
theorem evalCondition_like_leading (row : Row) (c l p s : GoString) (j : Nat)
    (hv : row.get c = some (.string l))
    (hstart : p.head? = some pct) (hend : p.getLast? ≠ some pct)
    (hp : p = List.replicate j pct ++ s) (hs : s.head? ≠ some pct) :
    evalCondition row (.BinaryExpr (.Ident c) .Like (.SingleQuotedString p))
      = .ok (decide (s <:+ l)) := by
  have hl : s.getLast? ≠ some pct := by
    intro h
    apply hend
    rw [hp, List.getLast?_append, h]
    rfl
  have hp2 : p = List.replicate j pct ++ s ++ List.replicate 0 pct := by
    simpa using hp
  rw [evalCondition_like row c l p hv, evalLike_decomp l p s j 0 hp2 hs hl,
    (HasPrefix_pct_iff p pct).mpr hstart, HasSuffix_pct_false p hend,
    HasSuffix_eq_decide]
  rfl

/-- C8, witness: on `{a: "abcdef"}`, `a LIKE '%%def'` is true, as `abcdef`
ends with `def`. -/
theorem evalCondition_like_leading_witness :
    evalCondition rowAbcdef (.BinaryExpr (.Ident colA) .Like (.SingleQuotedString patPctPctDef))
      = .ok (decide (([100, 101, 102] : GoString) <:+ strAbcdef)) :=
  evalCondition_like_leading rowAbcdef colA strAbcdef patPctPctDef [100, 101, 102] 2
    (by decide) (by decide) (by decide) (by decide) (by decide)

/-- C9 as stated fails: on `{a: "abcdef"}` the pattern `%%cd%%` starts and
ends with a percent sign, `a LIKE '%%cd%%'` is true, and `abcdef` does not
contain the pattern stripped of its leading and of its trailing percent sign,
`%cd%`. -/
theorem evalCondition_like_both_counterexample :
    rowAbcdef.get colA = some (.string strAbcdef) ∧
    patPctPctCdPctPct.head? = some pct ∧ patPctPctCdPctPct.getLast? = some pct ∧
    evalCondition rowAbcdef
      (.BinaryExpr (.Ident colA) .Like (.SingleQuotedString patPctPctCdPctPct)) = .ok true ∧
    ¬ ((patPctPctCdPctPct.drop 1).dropLast <:+: strAbcdef) := by
  decide

/-- C9, amended. For every text value `l` of a present column and every text
pattern `p` that both starts and ends with a percent sign, the comparison
`column LIKE p` evaluates to true exactly when `l` contains `s` as a substring,
where `s` is `p` with all of its leading and all of its trailing percent signs
removed: `p` is `j` percent signs, then `s`, then `k` percent signs, and `s`
neither starts nor ends with a percent sign. -/
theorem evalCondition_like_both (row : Row) (c l p s : GoString) (j k : Nat)
    (hv : row.get c = some (.string l))
    (hstart : p.head? = some pct) (hend : p.getLast? = some pct)
    (hp : p = List.replicate j pct ++ s ++ List.replicate k pct)
    (hh : s.head? ≠ some pct) (hl : s.getLast? ≠ some pct) :
    evalCondition row (.BinaryExpr (.Ident c) .Like (.SingleQuotedString p))
      = .ok (decide (s <:+: l)) := by
  rw [evalCondition_like row c l p hv, evalLike_decomp l p s j k hp hh hl,
    (HasPrefix_pct_iff p pct).mpr hstart, (HasSuffix_pct_iff p pct).mpr hend,
    Contains_eq_decide]
  rfl

/-- C9, witness: on `{a: "abcdef"}`, `a LIKE '%%cd%%'` is true, as `abcdef`
contains `cd`. -/
theorem evalCondition_like_both_witness :
    evalCondition rowAbcdef
      (.BinaryExpr (.Ident colA) .Like (.SingleQuotedString patPctPctCdPctPct))
      = .ok (decide (([99, 100] : GoString) <:+: strAbcdef)) :=
  evalCondition_like_both rowAbcdef colA strAbcdef patPctPctCdPctPct [99, 100] 2 2
    (by decide) (by decide) (by decide) (by decide) (by decide) (by decide)

/-- C10. For every text value `l` of a present column and every text pattern
`p` that neither starts nor ends with a percent sign, `column LIKE p` gives
the verdict of `column = p`: true exactly when `l` equals `p`, whatever the
interior of `p` holds. -/
theorem evalCondition_like_exact (row : Row) (c l p : GoString)
    (hv : row.get c = some (.string l))
    (hstart : p.head? ≠ some pct) (hend : p.getLast? ≠ some pct) :
    evalCondition row (.BinaryExpr (.Ident c) .Like (.SingleQuotedString p))
      = evalCondition row (.BinaryExpr (.Ident c) .Eq (.SingleQuotedString p)) ∧
    evalCondition row (.BinaryExpr (.Ident c) .Like (.SingleQuotedString p))
      = .ok (decide (l = p)) := by
  have hlike : evalLike l p = (l == p) := by
    simp only [evalLike, HasPrefix_pct_false p hstart, HasSuffix_pct_false p hend]
    rfl
  have heq : (l == p) = decide (l = p) := by
    rw [Bool.eq_iff_iff, beq_iff_eq, decide_eq_true_eq]
  constructor
  · rw [evalCondition_like row c l p hv, hlike]
    simp only [evalCondition, evalBinary, hv, evalCompare]
  · rw [evalCondition_like row c l p hv, hlike, heq]

/-- C10, witness: on `{a: "axb"}`, `a LIKE 'a%b'` is false like `a = 'a%b'`:
the percent sign inside the pattern matches nothing but itself. -/
theorem evalCondition_like_exact_witness :
    evalCondition rowAxb (.BinaryExpr (.Ident colA) .Like (.SingleQuotedString patAPctB))
      = evalCondition rowAxb (.BinaryExpr (.Ident colA) .Eq (.SingleQuotedString patAPctB)) ∧
    evalCondition rowAxb (.BinaryExpr (.Ident colA) .Like (.SingleQuotedString patAPctB))
      = .ok (decide (([97, 120, 98] : GoString) = patAPctB)) :=
  evalCondition_like_exact rowAxb colA [97, 120, 98] patAPctB
    (by decide) (by decide) (by decide)

/-! ## Comparisons of integers and texts -/

/-- C11. For every row in which the column is present with an integer (a
text) value and every operator among `=`, `!=`, `>`, `>=`, `<`, `<=`, the
comparison with an Integer (a Text) literal succeeds, and its verdict is the
relation of that operator between the column value on the left and the literal
on the right: equality and order of the integers, equality and lexicographic
order of the texts. -/
theorem evalCondition_compare (row : Row) (c : GoString) (op : OperatorType)
    (hop : op ∈ comparisonOps) :
    (∀ l r : Int, row.get c = some (.int l) →
      ∃ b, evalCondition row (.BinaryExpr (.Ident c) op (.LongValue r)) = .ok b ∧
        (b = true ↔ opRel (fun x y : Int => x < y) op l r)) ∧
    (∀ l r : GoString, row.get c = some (.string l) →
      ∃ b, evalCondition row (.BinaryExpr (.Ident c) op (.SingleQuotedString r)) = .ok b ∧
        (b = true ↔ opRel (List.Lex (fun x y : byte => x < y)) op l r)) := by
  have hlex : ∀ x y : GoString, strLt x y = true ↔ List.Lex (fun a b : byte => a < b) x y := by
    intro x y
    unfold strLt
    rw [decide_eq_true_eq]
    exact Iff.rfl
  have hnlex : ∀ x y : GoString,
      (!strLt x y) = true ↔ List.Lex (fun a b : byte => a < b) y x ∨ x = y := by
    intro x y
    rw [← hlex y x]
    unfold strLt
    rw [Bool.not_eq_true', decide_eq_false_iff_not, decide_eq_true_eq, not_lt,
      le_iff_lt_or_eq, eq_comm]
  simp only [comparisonOps, List.mem_cons, List.mem_singleton, List.mem_nil_iff,
    or_false] at hop
  constructor
  · intro l r hv
    rcases hop with h | h | h | h | h | h <;> subst h <;>
      simp only [evalCondition, evalBinary, hv, evalCompare, intOfLong, opRel] <;>
      refine ⟨_, rfl, ?_⟩ <;>
      rw [decide_eq_true_eq]
    · exact ge_iff_le.trans (le_iff_lt_or_eq.trans (or_congr Iff.rfl eq_comm))
    · exact le_iff_lt_or_eq
  · intro l r hv
    rcases hop with h | h | h | h | h | h <;> subst h <;>
      simp only [evalCondition, evalBinary, hv, evalCompare, opRel] <;>
      refine ⟨_, rfl, ?_⟩
    · exact beq_iff_eq
    · exact bne_iff_ne
    · exact hlex r l
    · exact hnlex l r
    · exact hlex l r
    · exact (hnlex r l).trans (or_congr Iff.rfl eq_comm)

/-- C11, witness: on `{a: 2}`, `a >= 1` is true (test `IntGte`), as 1 < 2; on
`{a: "b"}`, `a <= 'a'` is false, as `b` is neither below nor equal to `a`. -/
theorem evalCondition_compare_witness :
    (∃ b, evalCondition rowA2 (.BinaryExpr (.Ident colA) .GtEq (.LongValue 1)) = .ok b ∧
      (b = true ↔ opRel (fun x y : Int => x < y) .GtEq 2 1)) ∧
    (∃ b, evalCondition rowStrB (.BinaryExpr (.Ident colA) .LtEq (.SingleQuotedString [97]))
        = .ok b ∧
      (b = true ↔ opRel (List.Lex (fun x y : byte => x < y)) .LtEq [98] [97])) :=
  ⟨(evalCondition_compare rowA2 colA .GtEq (by decide)).1 2 1 (by decide),
   (evalCondition_compare rowStrB colA .LtEq (by decide)).2 [98] [97] (by decide)⟩

/-! ## Errors -/

/-- C12. For every row, the empty one included, and every comparison (a
binary node whose operator is neither `AND` nor `OR`) or `IN` test whose left
side is not a plain column identifier, `evalCondition` fails with an error and
returns no verdict, whatever the operator, the right-hand side or the items. -/
theorem evalCondition_left_not_ident (row : Row) (left : Node)
    (hleft : ∀ c, left ≠ .Ident c) :
    (∀ op right, op ≠ .And → op ≠ .Or →
      evalCondition row (.BinaryExpr left op right)
        = .error (.leftMustBeIdent left.typeOf)) ∧
    (∀ items neg,
      evalCondition row (.InList left items neg)
        = .error (.inListExprMustBeIdent left.typeOf)) := by
  have hb : ∀ op right, evalBinary row left op right
      = .error (.leftMustBeIdent left.typeOf) := by
    intro op right
    cases left <;> first
      | exact absurd rfl (hleft _)
      | rfl
  have hi : ∀ items, evalInList row left items
      = .error (.inListExprMustBeIdent left.typeOf) := by
    intro items
    cases left <;> first
      | exact absurd rfl (hleft _)
      | rfl
  constructor
  · intro op right hand hor
    cases op <;> first
      | exact absurd rfl hand
      | exact absurd rfl hor
      | simp only [evalCondition, hb]
  · intro items neg
    simp only [evalCondition, hi]

/-- C12, witness: on the empty row, `(a) = 1` and `1 IN (1)` fail: their left
sides are a grouping and a literal. -/
theorem evalCondition_left_not_ident_witness :
    evalCondition [] (.BinaryExpr (.Nested (.Ident colA)) .Eq (.LongValue 1))
      = .error (.leftMustBeIdent .Nested) ∧
    evalCondition [] (.InList (.LongValue 1) [.LongValue 1] false)
      = .error (.inListExprMustBeIdent .LongValue) :=
  ⟨(evalCondition_left_not_ident [] (.Nested (.Ident colA)) (fun _ h => Node.noConfusion h)).1
     .Eq (.LongValue 1) (by decide) (by decide),
   (evalCondition_left_not_ident [] (.LongValue 1) (fun _ h => Node.noConfusion h)).2
     [.LongValue 1] false⟩

/-- C13. For every row in which the column is present with an integer value
and every comparison of it with an Integer literal whose operator is `LIKE`, or
any other operator outside `=`, `!=`, `>`, `>=`, `<`, `<=` and outside `AND`,
`OR`, `evalCondition` fails with the unsupported-operator error of integers
and returns no verdict. -/
theorem evalCondition_int_unsupported (row : Row) (c : GoString) (l r : Int)
    (op : OperatorType) (hv : row.get c = some (.int l))
    (hop : op ∉ comparisonOps) (hand : op ≠ .And) (hor : op ≠ .Or) :
    evalCondition row (.BinaryExpr (.Ident c) op (.LongValue r))
      = .error (.unsupportedIntExpression op) := by
  simp only [comparisonOps, List.mem_cons, List.mem_singleton, List.mem_nil_iff,
    or_false, not_or] at hop
  obtain ⟨h1, h2, h3, h4, h5, h6⟩ := hop
  cases op <;> first
    | exact absurd rfl hand
    | exact absurd rfl hor
    | exact absurd rfl h1
    | exact absurd rfl h2
    | exact absurd rfl h3
    | exact absurd rfl h4
    | exact absurd rfl h5
    | exact absurd rfl h6
    | simp only [evalCondition, evalBinary, hv, evalCompare]

/-- C13, witness: on `{a: 1, b: 2}`, `a LIKE 1` fails with the
unsupported-operator error. -/
theorem evalCondition_int_unsupported_witness :
    evalCondition rowAB exprALike1 = .error (.unsupportedIntExpression .Like) :=
  evalCondition_int_unsupported rowAB colA 1 1 .Like (by decide) (by decide)
    (by decide) (by decide)

/-- C14, at the failing inputs: on `{a: 1.5}`, `a LIKE 1.5` returns true
without error, and on `{a: true}` so do `a > true` and `a LIKE true`, where an
unsupported-operator error is due; the integer sibling `a LIKE 1` on
`{a: 1, b: 2}` does fail with that error. -/
theorem evalCondition_float_bool_fall_through :
    rowFloat.get colA = some (.float64 float1p5) ∧
    evalCondition rowFloat (.BinaryExpr (.Ident colA) .Like (.DoubleValue float1p5))
      = .ok true ∧
    rowTrue.get colA = some (.bool true) ∧
    evalCondition rowTrue (.BinaryExpr (.Ident colA) .Gt (.BooleanValue true)) = .ok true ∧
    evalCondition rowTrue (.BinaryExpr (.Ident colA) .Like (.BooleanValue true)) = .ok true ∧
    evalCondition rowAB exprALike1 = .error (.unsupportedIntExpression .Like) := by
  decide

/-! ## Grouping, the fallback and the row filter -/

/-- C15. For every row and expression `e`, `evalCondition` on `e` wrapped in
any number of groupings equals `evalCondition` on `e`: the same verdict when
`e` succeeds, the same error when it fails. -/
theorem evalCondition_nested (row : Row) (e : Node) (n : Nat) :
    evalCondition row (Node.Nested^[n] e) = evalCondition row e := by
  induction n with
  | zero => rfl
  | succ k ih =>
      rw [Function.iterate_succ_apply']
      simp only [evalCondition]
      exact ih

/-- C16. For every row in which the column is present, with a value of any
kind, and every comparison operator, a comparison of the column with a
right-hand side that is not an Integer, Float, Text or Boolean literal (such as
a double-quoted token, an identifier) evaluates to true without error. -/
theorem evalCondition_fallback (row : Row) (c : GoString) (v : Value)
    (op : OperatorType) (right : Node)
    (hv : row.get c = some v) (hr : right.literalKind = none)
    (hand : op ≠ .And) (hor : op ≠ .Or) :
    evalCondition row (.BinaryExpr (.Ident c) op right) = .ok true := by
  have hcmp : evalCompare v op right = .ok true := by
    cases right <;> first
      | rfl
      | simp [Node.literalKind] at hr
  cases op <;> first
    | exact absurd rfl hand
    | exact absurd rfl hor
    | simp only [evalCondition, evalBinary, hv, hcmp]

/-- C16, witness: on `{a: 1, b: 2}`, `a = "1"`, whose right side is the
identifier `1` (test `IntEqDoubleQuote`), is true. -/
theorem evalCondition_fallback_witness :
    evalCondition rowAB (.BinaryExpr (.Ident colA) .Eq (.Ident [49])) = .ok true :=
  evalCondition_fallback rowAB colA (.int 1) .Eq (.Ident [49]) (by decide) rfl
    (by decide) (by decide)

/-- C17. For every engine and row, `Engine.Row` returns a non-nil error
exactly when `evalCondition` fails on the `WHERE` clause and the row; when
`evalCondition` succeeds, `Row` returns nil whether the verdict is true or
false. -/
theorem engineRow_error_iff (whereClause : Node) (row : Row) :
    (Engine.Row whereClause row ≠ none ↔
      ∃ err, evalCondition row whereClause = .error err) ∧
    (∀ b, evalCondition row whereClause = .ok b → Engine.Row whereClause row = none) := by
  unfold Engine.Row
  cases h : evalCondition row whereClause with
  | error err => simp
  | ok b => cases b <;> simp

/-- C17, witness: on `{a: 1, b: 2}` the engine returns nil for `a = 1` (true)
and for `a = 2` (false), and an error for `a LIKE 1`. -/
theorem engineRow_error_iff_witness :
    Engine.Row exprAEq1 rowAB = none ∧ Engine.Row exprAEq2 rowAB = none ∧
    Engine.Row exprALike1 rowAB ≠ none :=
  ⟨(engineRow_error_iff exprAEq1 rowAB).2 true (by decide),
   (engineRow_error_iff exprAEq2 rowAB).2 false (by decide),
   (engineRow_error_iff exprALike1 rowAB).1.mpr
     ⟨.unsupportedIntExpression .Like, by decide⟩⟩

/-! ## Algebraic laws -/

/-- C18. De Morgan, errors included: for every row and expressions `e1`,
`e2`, `NOT (e1 AND e2)` evaluates as `(NOT e1) OR (NOT e2)` and
`NOT (e1 OR e2)` as `(NOT e1) AND (NOT e2)`, with the same verdict or the same
error on both sides. -/
theorem evalCondition_de_morgan (row : Row) (e1 e2 : Node) :
    evalCondition row (.UnaryExpr .Not (.BinaryExpr e1 .And e2))
      = evalCondition row (.BinaryExpr (.UnaryExpr .Not e1) .Or (.UnaryExpr .Not e2)) ∧
    evalCondition row (.UnaryExpr .Not (.BinaryExpr e1 .Or e2))
      = evalCondition row (.BinaryExpr (.UnaryExpr .Not e1) .And (.UnaryExpr .Not e2)) := by
  simp only [evalCondition]
  rcases evalCondition row e1 with err1 | _ | _ <;>
    rcases evalCondition row e2 with err2 | _ | _ <;>
    exact ⟨rfl, rfl⟩

/-- C19. The result depends only on the columns the expression names: for
every expression `e` and rows `r1`, `r2` that agree, in presence and in value,
on every column identifier that is the left side of a comparison or of an `IN`
test of `e`, `evalCondition` gives the same result, verdict or error, on `r1`
and on `r2`. -/
theorem evalCondition_agree (r1 r2 : Row) :
    ∀ e : Node, (∀ c ∈ e.columns, r1.get c = r2.get c) →
      evalCondition r1 e = evalCondition r2 e
  | .Nested ast, h => by
      simp only [evalCondition]
      exact evalCondition_agree r1 r2 ast (by simpa only [Node.columns] using h)
  | .UnaryExpr op expr, h => by
      have ih := evalCondition_agree r1 r2 expr (by simpa only [Node.columns] using h)
      cases op <;> simp only [evalCondition, ih]
  | .InList expr items neg, h => by
      cases expr with
      | Ident c =>
          have hc := h c (by simp [Node.columns])
          simp only [evalCondition, evalInList, hc]
      | _ => rfl
  | .BinaryExpr left op right, h => by
      cases op with
      | And =>
          have ihl := evalCondition_agree r1 r2 left
            (fun c hc => h c (by simp [Node.columns, hc]))
          have ihr := evalCondition_agree r1 r2 right
            (fun c hc => h c (by simp [Node.columns, hc]))
          simp only [evalCondition, ihl, ihr]
      | Or =>
          have ihl := evalCondition_agree r1 r2 left
            (fun c hc => h c (by simp [Node.columns, hc]))
          have ihr := evalCondition_agree r1 r2 right
            (fun c hc => h c (by simp [Node.columns, hc]))
          simp only [evalCondition, ihl, ihr]
      | _ =>
          cases left with
          | Ident c =>
              have hc := h c (by simp [Node.columns])
              simp only [evalCondition, evalBinary, hc]
          | _ => rfl
  | .Ident _, _ => rfl
  | .LongValue _, _ => rfl
  | .SingleQuotedString _, _ => rfl
  | .DoubleValue _, _ => rfl
  | .BooleanValue _, _ => rfl
  | .Other _, _ => rfl

/-- C19, witness: the rows `{a: 1, b: 2}` and `{a: 1, b: 3}` agree on `a`, the
only column of `NOT (a = 2)`, and the expression has the same result on
both. -/
theorem evalCondition_agree_witness :
    evalCondition rowAB (.UnaryExpr .Not (.Nested exprAEq2))
      = evalCondition rowAB3 (.UnaryExpr .Not (.Nested exprAEq2)) :=
  evalCondition_agree rowAB rowAB3 (.UnaryExpr .Not (.Nested exprAEq2)) (by decide)

/-- C20. For every row, column and Integer, Text or Boolean literal, the
comparison `column != literal` and the negation `NOT (column = literal)` give
the same verdict exactly when the column is present in the row with a value of
the kind of the literal; when the column is absent or holds a value of another
kind, `column != literal` is false while `NOT (column = literal)` is true. -/
theorem evalCondition_noteq_not_eq (row : Row) (c : GoString) (lit : Node) (k : Kind)
    (hk : lit.literalKind = some k) (hf : k ≠ .Float) :
    (evalCondition row (.BinaryExpr (.Ident c) .NotEq lit)
        = evalCondition row (.UnaryExpr .Not (.BinaryExpr (.Ident c) .Eq lit)) ↔
      ∃ v, row.get c = some v ∧ v.kind = some k) ∧
    ((¬ ∃ v, row.get c = some v ∧ v.kind = some k) →
      evalCondition row (.BinaryExpr (.Ident c) .NotEq lit) = .ok false ∧
      evalCondition row (.UnaryExpr .Not (.BinaryExpr (.Ident c) .Eq lit)) = .ok true) := by
  cases hrow : row.get c with
  | none => simp [evalCondition, evalBinary, hrow]
  | some v =>
      cases lit <;> simp only [Node.literalKind, Option.some.injEq, reduceCtorEq] at hk
        <;> subst hk
        <;> cases v
        <;> simp [evalCondition, evalBinary, hrow, evalCompare, Value.kind, intOfLong, bne] at hf ⊢

/-- C20, witness: on `{a: 1, b: 2}`, `a != 1` and `NOT (a = 1)` agree; on
`{a: "1"}`, `a != 1` is false and `NOT (a = 1)` is true. -/
theorem evalCondition_noteq_not_eq_witness :
    evalCondition rowAB (.BinaryExpr (.Ident colA) .NotEq (.LongValue 1))
      = evalCondition rowAB (.UnaryExpr .Not exprAEq1) ∧
    evalCondition rowStr1 (.BinaryExpr (.Ident colA) .NotEq (.LongValue 1)) = .ok false ∧
    evalCondition rowStr1 (.UnaryExpr .Not exprAEq1) = .ok true :=
  ⟨(evalCondition_noteq_not_eq rowAB colA (.LongValue 1) .Integer rfl (by decide)).1.mpr
     ⟨.int 1, by decide, rfl⟩,
   (evalCondition_noteq_not_eq rowStr1 colA (.LongValue 1) .Integer rfl (by decide)).2
     (fun ⟨_, hv, hkind⟩ => by cases hv; cases hkind)⟩

end gosqlfilter
